import Mathlib

/-!
Verification of the `LockManager` class from `src/core/locks/lockManager.ts`
(per-resource lock coordinator across browser tabs).

The embedding models the manager state explicitly:
* the IndexedDB `locks` object store (keyed by `instanceId`) becomes an
  association list of `LockRecord`s with get/put/delete by key;
* the in-memory `Set<string>` of held locks becomes a duplicate-free list;
* the `BroadcastChannel` becomes a log of successfully posted messages,
  parametrised by a `busOk` flag (`postMessage` throwing is modelled by
  `busOk = false`, and the `try/catch` in `broadcast` swallows the failure);
* `Date.now()` becomes an explicit `now : Int` argument (milliseconds);
* a fallible `db.get` (for store errors) is modelled by passing the
  outcome of the get as an `Except` value to `acquireLockF`.
-/

namespace UIStudio

/-- `LOCK_TIMEOUT = 5 * 60 * 1000` (5 minutes, in milliseconds). -/
def LOCK_TIMEOUT : Int := 5 * 60 * 1000

/-- `PING_INTERVAL = 30 * 1000` (30 seconds, in milliseconds). -/
def PING_INTERVAL : Int := 30 * 1000

/-- `LockRecord` from `src/core/idb/database.ts`: one row of the `locks`
object store, keyed by `instanceId`. -/
structure LockRecord where
  instanceId : String
  tabId : String
  ts : Int
deriving Repr, DecidableEq

/-- The tag of a `LockMessage` (discriminated union in `types.ts`). -/
inductive LockMessageType where
  | lock_acquired
  | lock_released
  | lock_ping
deriving Repr, DecidableEq

/-- `LockMessage` from `types.ts`: `{type, instanceId, tabId}`. -/
structure LockMessage where
  type : LockMessageType
  instanceId : String
  tabId : String
deriving Repr, DecidableEq

/-- `LockStatus` from `types.ts`. Optional fields become `Option`. -/
structure LockStatus where
  isLocked : Bool
  ownedByThisTab : Bool
  lockHolder : Option String
  lockAge : Option Int
deriving Repr, DecidableEq

/-- The `locks` object store: association list keyed by `instanceId`. -/
abbrev Ledger := List LockRecord

/-- `db.get('locks', instanceId)`: lookup by key. -/
def dbGet (ledger : Ledger) (instanceId : String) : Option LockRecord :=
  ledger.find? fun l => l.instanceId == instanceId

/-- `db.put('locks', lock)`: upsert by the record key `lock.instanceId`. -/
def dbPut (ledger : Ledger) (lock : LockRecord) : Ledger :=
  lock :: ledger.filter fun l => l.instanceId != lock.instanceId

/-- `db.delete('locks', instanceId)`: remove the row with that key. -/
def dbDelete (ledger : Ledger) (instanceId : String) : Ledger :=
  ledger.filter fun l => l.instanceId != instanceId

/-- State of one `LockManager` instance: its `tabId`, the shared ledger,
`heldLocks`, the log of messages posted on the channel, and the
`pingInterval`/`channel` liveness flags used by `destroy`. -/
structure LockManager where
  tabId : String
  ledger : Ledger
  heldLocks : List String
  broadcasts : List LockMessage
  pingActive : Bool
  channelOpen : Bool
deriving Repr, DecidableEq

/-- `broadcast(message)`: `try { postMessage } catch { console.error }` —
when the bus fails (`busOk = false`) the message is dropped and the error
swallowed; on success the message is appended to the channel log. -/
def broadcast (busOk : Bool) (sent : List LockMessage) (m : LockMessage) :
    List LockMessage :=
  if busOk then sent ++ [m] else sent

/-- The unconditional tail of `acquireLock` (after the early return):
write the record, add to `heldLocks`, broadcast `lock_acquired`, return
`true`. -/
def doAcquire (s : LockManager) (now : Int) (instanceId : String)
    (busOk : Bool) : Bool × LockManager :=
  let lock : LockRecord := { instanceId := instanceId, tabId := s.tabId, ts := now }
  let s1 : LockManager :=
    { s with
      ledger := dbPut s.ledger lock
      heldLocks := s.heldLocks.insert instanceId }
  (true,
    { s1 with
      broadcasts :=
        broadcast busOk s1.broadcasts ⟨.lock_acquired, instanceId, s.tabId⟩ })

/-- `acquireLock`, factored over the result of the initial `getLock`
read (so the same body serves the fallible-store variant). -/
def acquireLockCore (s : LockManager) (now : Int) (instanceId : String)
    (existingLock : Option LockRecord) (busOk : Bool) : Bool × LockManager :=
  match existingLock with
  | some l =>
      if l.tabId ≠ s.tabId then
        if now - l.ts < LOCK_TIMEOUT then
          (false, s)
        else
          doAcquire s now instanceId busOk
      else
        doAcquire s now instanceId busOk
  | none => doAcquire s now instanceId busOk

/-- `LockManager.acquireLock(instanceId)`. -/
def acquireLock (s : LockManager) (now : Int) (instanceId : String)
    (busOk : Bool) : Bool × LockManager :=
  acquireLockCore s now instanceId (dbGet s.ledger instanceId) busOk

/-- Store failures of the ledger (`db.get` rejecting). -/
inductive StoreError where
  | storeError
deriving Repr, DecidableEq

/-- `acquireLock` when the initial `await this.getLock(...)` may reject:
`getRes` is the outcome of the get.  A rejection propagates out of
`acquireLock` (the `async` method has no `try/catch`), leaving the state
untouched. -/
def acquireLockF (s : LockManager) (now : Int) (instanceId : String)
    (getRes : Except StoreError (Option LockRecord)) (busOk : Bool) :
    Except StoreError Bool × LockManager :=
  match getRes with
  | .error e => (.error e, s)
  | .ok existingLock =>
      let r := acquireLockCore s now instanceId existingLock busOk
      (.ok r.1, r.2)

/-- `LockManager.releaseLock(instanceId)`: delete the row, remove from
`heldLocks`, broadcast `lock_released` — all unconditionally. -/
def releaseLock (s : LockManager) (instanceId : String) (busOk : Bool) :
    LockManager :=
  let s1 : LockManager :=
    { s with
      ledger := dbDelete s.ledger instanceId
      heldLocks := s.heldLocks.erase instanceId }
  { s1 with
    broadcasts :=
      broadcast busOk s1.broadcasts ⟨.lock_released, instanceId, s.tabId⟩ }

/-- `LockManager.getLockStatus(instanceId)`. -/
def getLockStatus (s : LockManager) (now : Int) (instanceId : String) :
    LockStatus :=
  match dbGet s.ledger instanceId with
  | none => ⟨false, false, none, none⟩
  | some lock =>
      let age := now - lock.ts
      if age ≥ LOCK_TIMEOUT then ⟨false, false, none, none⟩
      else ⟨true, lock.tabId == s.tabId, some lock.tabId, some age⟩

/-- `LockManager.refreshLock(instanceId)`: re-read the row; if it still
names this tab, rewrite it with `ts = Date.now()`; otherwise do nothing. -/
def refreshLock (s : LockManager) (now : Int) (instanceId : String) :
    LockManager :=
  match dbGet s.ledger instanceId with
  | some lock =>
      if lock.tabId == s.tabId then
        { s with ledger := dbPut s.ledger { lock with ts := now } }
      else s
  | none => s

/-- One iteration of the body of the ping-loop callback for a single
held `instanceId`: refresh the lock, then broadcast `lock_ping`. -/
def pingTick (busOk : Bool) (now : Int) (s : LockManager)
    (instanceId : String) : LockManager :=
  let s1 := refreshLock s now instanceId
  { s1 with
    broadcasts := broadcast busOk s1.broadcasts ⟨.lock_ping, instanceId, s1.tabId⟩ }

/-- One firing of the `setInterval` callback installed by
`startPingLoop`: iterate `pingTick` over every id in `heldLocks`. -/
def pingLoopStep (s : LockManager) (now : Int) (busOk : Bool) : LockManager :=
  s.heldLocks.foldl (pingTick busOk now) s

/-- `LockManager.destroy()`: clear the interval, close the channel, and
deliberately leave `heldLocks` (and the ledger) alone. -/
def destroy (s : LockManager) : LockManager :=
  { s with pingActive := false, channelOpen := false }

/-! ### Helper lemmas about the ledger -/

/-- A record found by key lookup carries that key. -/
theorem dbGet_key {ledger : Ledger} {iid : String} {l : LockRecord}
    (h : dbGet ledger iid = some l) : l.instanceId = iid := by
  unfold dbGet at h
  have hp := List.find?_some h
  exact eq_of_beq hp

/-- Reading back the key just written returns the written record. -/
theorem dbGet_dbPut_self (ledger : Ledger) (lock : LockRecord) :
    dbGet (dbPut ledger lock) lock.instanceId = some lock := by
  unfold dbGet dbPut
  simp [List.find?_cons]

/-- After deleting a key, looking it up yields nothing. -/
theorem dbGet_dbDelete_self (ledger : Ledger) (iid : String) :
    dbGet (dbDelete ledger iid) iid = none := by
  unfold dbGet dbDelete
  rw [List.find?_eq_none]
  intro x hx
  simp only [List.mem_filter] at hx
  simpa using hx.2

/-- A successful acquire writes exactly `{instanceId, tabId: selfId, ts: now}`. -/
theorem acquireLock_true_ledger (s : LockManager) (now : Int) (iid : String)
    (busOk : Bool) (h : (acquireLock s now iid busOk).1 = true) :
    (acquireLock s now iid busOk).2.ledger = dbPut s.ledger ⟨iid, s.tabId, now⟩ := by
  unfold acquireLock acquireLockCore at h ⊢
  cases hg : dbGet s.ledger iid with
  | none => simp [doAcquire]
  | some l =>
      rw [hg] at h
      by_cases ht : l.tabId = s.tabId
      · simp [ht, doAcquire]
      · by_cases hage : now - l.ts < LOCK_TIMEOUT
        · simp [ht, hage] at h
        · simp [ht, hage, doAcquire]

/-- A single ping-loop iteration never touches `heldLocks`. -/
theorem pingTick_heldLocks (busOk : Bool) (now : Int) (s : LockManager)
    (iid : String) : (pingTick busOk now s iid).heldLocks = s.heldLocks := by
  unfold pingTick refreshLock
  cases dbGet s.ledger iid with
  | none => rfl
  | some lock => cases h : lock.tabId == s.tabId <;> simp [h]

/-- Folding ping-loop iterations over any id list keeps `heldLocks`. -/
theorem foldl_pingTick_heldLocks (busOk : Bool) (now : Int) :
    ∀ (ids : List String) (acc : LockManager),
      (ids.foldl (pingTick busOk now) acc).heldLocks = acc.heldLocks := by
  intro ids
  induction ids with
  | nil => intro acc; rfl
  | cons a t ih =>
      intro acc
      rw [List.foldl_cons, ih, pingTick_heldLocks]

/-! ### Claim theorems -/

/-- C2. Acquirability: `acquireLock` returns `true` iff the ledger record
for the resource is absent, or its `tabId` equals this context's own
`tabId`, or its age `now - ts` is at least `LOCK_TIMEOUT` (boundary
inclusive), so a record written exactly `LOCK_TIMEOUT` ago is reclaimable
and a never-renewing owner loses the resource after `LOCK_TIMEOUT`. -/
theorem acquireLock_true_iff (s : LockManager) (now : Int) (iid : String)
    (busOk : Bool) :
    (acquireLock s now iid busOk).1 = true ↔
      dbGet s.ledger iid = none ∨
      (∃ l, dbGet s.ledger iid = some l ∧ l.tabId = s.tabId) ∨
      (∃ l, dbGet s.ledger iid = some l ∧ LOCK_TIMEOUT ≤ now - l.ts) := by
  unfold acquireLock acquireLockCore
  cases hg : dbGet s.ledger iid with
  | none => simp [doAcquire]
  | some l =>
      by_cases ht : l.tabId = s.tabId
      · simp [ht, doAcquire]
      · by_cases hage : now - l.ts < LOCK_TIMEOUT
        · simp [ht, hage, doAcquire]
        · simp [ht, hage, doAcquire]
          omega

/-- C3. `getLockStatus` of a resource whose record has age
`now - ts ≥ LOCK_TIMEOUT` reports `isLocked = false` and
`ownedByThisTab = false`, whatever `tabId` the record stores (including
the caller's own). -/
theorem getLockStatus_stale (s : LockManager) (now : Int) (iid : String)
    (l : LockRecord) (hget : dbGet s.ledger iid = some l)
    (hstale : LOCK_TIMEOUT ≤ now - l.ts) :
    (getLockStatus s now iid).isLocked = false ∧
    (getLockStatus s now iid).ownedByThisTab = false := by
  unfold getLockStatus
  rw [hget]
  simp [hstale]

/-- Witness for C3, with the stored owner equal to the caller itself. -/
theorem getLockStatus_stale_witness :
    (getLockStatus (⟨"A", [⟨"R", "A", 0⟩], ["R"], [], true, true⟩ : LockManager)
        300000 "R").isLocked = false ∧
    (getLockStatus (⟨"A", [⟨"R", "A", 0⟩], ["R"], [], true, true⟩ : LockManager)
        300000 "R").ownedByThisTab = false :=
  getLockStatus_stale _ 300000 "R" ⟨"R", "A", 0⟩ (by decide) (by decide)

/-- C7. Failed-acquire atomicity: whenever `acquireLock` returns `false`
the state (ledger, heldLocks, broadcast log, everything) is returned
exactly as it was. -/
theorem acquireLock_false_frame (s : LockManager) (now : Int) (iid : String)
    (busOk : Bool) (h : (acquireLock s now iid busOk).1 = false) :
    (acquireLock s now iid busOk).2 = s := by
  unfold acquireLock acquireLockCore at h ⊢
  cases hg : dbGet s.ledger iid with
  | none => rw [hg] at h; simp [doAcquire] at h
  | some l =>
      rw [hg] at h
      by_cases ht : l.tabId = s.tabId
      · simp [ht, doAcquire] at h
      · by_cases hage : now - l.ts < LOCK_TIMEOUT
        · simp [ht, hage]
        · simp [ht, hage, doAcquire] at h

/-- Witness for C7: acquiring a resource freshly locked by another tab. -/
theorem acquireLock_false_frame_witness :
    (acquireLock (⟨"B", [⟨"R", "A", 10⟩], [], [], true, true⟩ : LockManager)
        10 "R" true).2 =
      (⟨"B", [⟨"R", "A", 10⟩], [], [], true, true⟩ : LockManager) :=
  acquireLock_false_frame _ 10 "R" true (by decide)

/-- C9. Bus failures are swallowed: `acquireLock` and `releaseLock` give
the same result, ledger and heldLocks whether the channel publish
succeeds (`busOk = true`) or throws (`busOk = false`). -/
theorem broadcast_failure_swallowed (s : LockManager) (now : Int)
    (iid : String) :
    (acquireLock s now iid false).1 = (acquireLock s now iid true).1 ∧
    (acquireLock s now iid false).2.ledger = (acquireLock s now iid true).2.ledger ∧
    (acquireLock s now iid false).2.heldLocks
      = (acquireLock s now iid true).2.heldLocks ∧
    (releaseLock s iid false).ledger = (releaseLock s iid true).ledger ∧
    (releaseLock s iid false).heldLocks = (releaseLock s iid true).heldLocks := by
  unfold acquireLock acquireLockCore doAcquire releaseLock
  cases dbGet s.ledger iid with
  | none => simp
  | some l =>
      by_cases ht : l.tabId = s.tabId
      · simp [ht]
      · by_cases hage : now - l.ts < LOCK_TIMEOUT
        · simp [ht, hage]
        · simp [ht, hage]

/-- C10. `destroy` releases nothing: it only clears the ping interval
and closes the channel; heldLocks, the ledger and the broadcast log are
untouched. -/
theorem destroy_frame (s : LockManager) :
    (destroy s).ledger = s.ledger ∧
    (destroy s).heldLocks = s.heldLocks ∧
    (destroy s).broadcasts = s.broadcasts ∧
    (destroy s).tabId = s.tabId ∧
    (destroy s).pingActive = false ∧
    (destroy s).channelOpen = false := by
  simp [destroy]

/-- C1. Mutual exclusion: if tab A's acquire of a resource returned
`true` and tab B (a different `tabId`) shares the resulting ledger, then
as long as the age of A's record (`nowB - nowA`) is still strictly below
`LOCK_TIMEOUT` and A has not released, B's acquire returns `false`. -/
theorem mutual_exclusion (sA sB : LockManager) (nowA nowB : Int)
    (iid : String) (busA busB : Bool)
    (hacq : (acquireLock sA nowA iid busA).1 = true)
    (hshare : sB.ledger = (acquireLock sA nowA iid busA).2.ledger)
    (htab : sB.tabId ≠ sA.tabId)
    (hfresh : nowB - nowA < LOCK_TIMEOUT) :
    (acquireLock sB nowB iid busB).1 = false := by
  have hled := acquireLock_true_ledger sA nowA iid busA hacq
  have hget : dbGet sB.ledger iid = some ⟨iid, sA.tabId, nowA⟩ := by
    rw [hshare, hled]
    exact dbGet_dbPut_self sA.ledger ⟨iid, sA.tabId, nowA⟩
  have htab2 : ¬ sA.tabId = sB.tabId := fun h => htab h.symm
  unfold acquireLock acquireLockCore
  rw [hget]
  simp [htab2, hfresh]

/-- Witness for C1: tab A acquires at time 0, tab B retries at time 1. -/
theorem mutual_exclusion_witness :
    (acquireLock
        (⟨"B",
          (acquireLock (⟨"A", [], [], [], true, true⟩ : LockManager)
            0 "R" true).2.ledger,
          [], [], true, true⟩ : LockManager) 1 "R" true).1 = false :=
  mutual_exclusion ⟨"A", [], [], [], true, true⟩ _ 0 1 "R" true true
    (by decide) rfl (by decide) (by decide)

/-- Counterexample to C4 as stated: releasing a resource this context
never held (heldLocks is empty) still deletes another tab's ledger
record and still emits a `lock_released` notification. -/
theorem releaseLock_not_noop_cex :
    (releaseLock (⟨"A", [⟨"R", "B", 0⟩], [], [], true, true⟩ : LockManager)
        "R" true).ledger
      ≠ (⟨"A", [⟨"R", "B", 0⟩], [], [], true, true⟩ : LockManager).ledger ∧
    (releaseLock (⟨"A", [⟨"R", "B", 0⟩], [], [], true, true⟩ : LockManager)
        "R" true).broadcasts
      ≠ (⟨"A", [⟨"R", "B", 0⟩], [], [], true, true⟩ : LockManager).broadcasts := by
  decide

/-- C4 amended: releasing a never-held resource completes without error
and leaves heldLocks unchanged, but it is not a ledger no-op — it
unconditionally deletes the ledger record for the resource (even one
owned by another context) and emits a `lock_released` notification. -/
theorem releaseLock_not_held (s : LockManager) (iid : String) (busOk : Bool)
    (h : iid ∉ s.heldLocks) :
    (releaseLock s iid busOk).heldLocks = s.heldLocks ∧
    (releaseLock s iid busOk).ledger = dbDelete s.ledger iid ∧
    dbGet (releaseLock s iid busOk).ledger iid = none ∧
    (releaseLock s iid busOk).broadcasts =
      broadcast busOk s.broadcasts ⟨LockMessageType.lock_released, iid, s.tabId⟩ := by
  unfold releaseLock
  exact ⟨by simp [List.erase_of_not_mem h], rfl,
    dbGet_dbDelete_self s.ledger iid, rfl⟩

/-- Witness for C4 amended: releasing "X", which is not held, while the
ledger holds tab B's record for "X". -/
theorem releaseLock_not_held_witness :
    (releaseLock (⟨"A", [⟨"X", "B", 0⟩], ["R"], [], true, true⟩ : LockManager)
        "X" true).heldLocks
      = (⟨"A", [⟨"X", "B", 0⟩], ["R"], [], true, true⟩ : LockManager).heldLocks ∧
    (releaseLock (⟨"A", [⟨"X", "B", 0⟩], ["R"], [], true, true⟩ : LockManager)
        "X" true).ledger
      = dbDelete (⟨"A", [⟨"X", "B", 0⟩], ["R"], [], true, true⟩ : LockManager).ledger "X" ∧
    dbGet (releaseLock (⟨"A", [⟨"X", "B", 0⟩], ["R"], [], true, true⟩ : LockManager)
        "X" true).ledger "X" = none ∧
    (releaseLock (⟨"A", [⟨"X", "B", 0⟩], ["R"], [], true, true⟩ : LockManager)
        "X" true).broadcasts
      = broadcast true
          (⟨"A", [⟨"X", "B", 0⟩], ["R"], [], true, true⟩ : LockManager).broadcasts
          ⟨LockMessageType.lock_released, "X",
            (⟨"A", [⟨"X", "B", 0⟩], ["R"], [], true, true⟩ : LockManager).tabId⟩ :=
  releaseLock_not_held _ "X" true (by decide)

/-- Counterexample to C5 as stated: after one firing of the renewal
loop, a held resource whose ledger record names another tab is still in
heldLocks — it is not evicted. -/
theorem pingLoop_no_eviction_cex :
    "R" ∈ (pingLoopStep
        (⟨"A", [⟨"R", "B", 100⟩], ["R"], [], true, true⟩ : LockManager)
        200 true).heldLocks := by
  decide

/-- C5 amended: the renewal tick never removes anything from heldLocks —
for a record now owned by another tab it merely skips the refresh, so a
lost resource stays in heldLocks indefinitely. -/
theorem pingLoopStep_heldLocks (s : LockManager) (now : Int) (busOk : Bool) :
    (pingLoopStep s now busOk).heldLocks = s.heldLocks :=
  foldl_pingTick_heldLocks busOk now s.heldLocks s

/-- Counterexample to C6 as stated: when the ledger get rejects with a
store error, acquire does not return `false` — the error propagates. -/
theorem acquire_store_error_cex :
    (acquireLockF (⟨"A", [], [], [], true, true⟩ : LockManager) 0 "R"
        (Except.error StoreError.storeError) true).1 ≠ Except.ok false := by
  intro h
  exact Except.noConfusion h

/-- C6 amended: when the ledger get during acquire fails, the store
error propagates to the caller (the promise rejects); acquire never
resolves `true` and writes nothing — the whole state is untouched. -/
theorem acquireLockF_store_error (s : LockManager) (now : Int) (iid : String)
    (e : StoreError) (busOk : Bool) :
    acquireLockF s now iid (Except.error e) busOk = (Except.error e, s) ∧
    (acquireLockF s now iid (Except.error e) busOk).1 ≠ Except.ok true := by
  refine ⟨rfl, ?_⟩
  intro h
  exact Except.noConfusion h

/-- Counterexample to C8 as stated: a non-decreasing clock may not have
advanced; refreshing an owned record with `now` equal to the stored
`ts` rewrites the same value, so `renewedAt` does not strictly
increase. -/
theorem refreshLock_strict_cex :
    (5 : Int) ≤ 5 ∧
    ¬ ∃ l, dbGet (refreshLock
        (⟨"A", [⟨"R", "A", 5⟩], ["R"], [], true, true⟩ : LockManager)
        5 "R").ledger "R" = some l ∧ 5 < l.ts := by
  refine ⟨le_refl 5, ?_⟩
  rintro ⟨l, hget, hlt⟩
  have h5 : dbGet (refreshLock
      (⟨"A", [⟨"R", "A", 5⟩], ["R"], [], true, true⟩ : LockManager)
      5 "R").ledger "R" = some ⟨"R", "A", 5⟩ := by decide
  rw [h5] at hget
  cases hget
  exact absurd hlt (by decide)

/-- C8 amended: one refresh of a still-owned record rewrites it in place
with `ts = now`: `instanceId` and `tabId` never change, `renewedAt`
never decreases under the non-decreasing-clock assumption `ts ≤ now`,
and it strictly increases exactly when the clock strictly advanced. -/
theorem refreshLock_renews (s : LockManager) (now : Int) (iid : String)
    (l : LockRecord) (hget : dbGet s.ledger iid = some l)
    (hown : l.tabId = s.tabId) (hclock : l.ts ≤ now) :
    ∃ l' : LockRecord, dbGet (refreshLock s now iid).ledger iid = some l' ∧
      l'.instanceId = l.instanceId ∧ l'.tabId = l.tabId ∧
      l.ts ≤ l'.ts ∧ (l.ts < now → l.ts < l'.ts) := by
  have hkey : l.instanceId = iid := dbGet_key hget
  refine ⟨⟨l.instanceId, l.tabId, now⟩, ?_, rfl, rfl, hclock, fun h => h⟩
  unfold refreshLock
  rw [hget]
  have hb : (l.tabId == s.tabId) = true := beq_iff_eq.mpr hown
  simp only [hb, if_true]
  rw [← hkey]
  exact dbGet_dbPut_self s.ledger ⟨l.instanceId, l.tabId, now⟩

/-- Witness for C8 amended: refreshing an owned record written at time 0
at time 10 stores ts = 10 with the same owner and resource id. -/
theorem refreshLock_renews_witness :
    ∃ l' : LockRecord, dbGet (refreshLock
        (⟨"A", [⟨"R", "A", 0⟩], ["R"], [], true, true⟩ : LockManager)
        10 "R").ledger "R" = some l' ∧
      l'.instanceId = (⟨"R", "A", 0⟩ : LockRecord).instanceId ∧
      l'.tabId = (⟨"R", "A", 0⟩ : LockRecord).tabId ∧
      (⟨"R", "A", 0⟩ : LockRecord).ts ≤ l'.ts ∧
      ((⟨"R", "A", 0⟩ : LockRecord).ts < 10 →
        (⟨"R", "A", 0⟩ : LockRecord).ts < l'.ts) :=
  refreshLock_renews _ 10 "R" ⟨"R", "A", 0⟩ (by decide) (by decide) (by decide)

end UIStudio
